import Mathlib

/-!
Verification development for the gocrete scaffolding engine
(packages `internal/engine`, `internal/modules`, `internal/cmd`).

The Go sources are shallowly embedded: filesystem state is passed
explicitly as a value, fallible operations return `Except`, and the
fragment of Go `text/template` exercised by the engine (literal text and
interpolation actions) is modelled as an executable parser and evaluator
over character lists.  External tool invocations (`go mod init`,
`go mod tidy`, `go fmt`) are modelled by outcome parameters, since their
behavior is environmental.
-/

deriving instance DecidableEq for Except

namespace Gocrete

/-! ### Go string helpers, modelled structurally over character lists -/

/-- The opening-brace character, written via its code point. -/
def lbrace : Char := Char.ofNat 123

/-- The closing-brace character, written via its code point. -/
def rbrace : Char := Char.ofNat 125

/-- ASCII whitespace recognized by `strings.TrimSpace` on the inputs that
occur in this code base. -/
def isSpaceChar (c : Char) : Bool :=
  c = ' ' || c = '\t' || c = '\n' || c = '\r'

/-- Trim leading and trailing whitespace from a character list
(models `strings.TrimSpace`). -/
def trimChars (l : List Char) : List Char :=
  ((l.dropWhile isSpaceChar).reverse.dropWhile isSpaceChar).reverse

/-- Models `strings.TrimSpace`. -/
def goTrim (s : String) : String := (trimChars s.data).asString

/-- The test `hasPre p s` is true when `p` is an initial segment of `s`. -/
def hasPre : List Char → List Char → Bool
  | [], _ => true
  | _ :: _, [] => false
  | p :: ps, c :: cs => p = c && hasPre ps cs

/-- Models `strings.HasPrefix s p`. -/
def goHasPre (s p : String) : Bool := hasPre p.data s.data

/-- Models `strings.HasSuffix s suf`. -/
def goHasSuf (s suf : String) : Bool := hasPre suf.data.reverse s.data.reverse

/-- Models `strings.TrimSuffix s suf`: drop `suf` from the end of `s` when present,
otherwise return `s` unchanged. -/
def stripTail (s suf : String) : String :=
  if goHasSuf s suf then (s.data.take (s.data.length - suf.data.length)).asString else s

/-- Models `strings.TrimPrefix s p`: drop `p` from the front of `s` when present,
otherwise return `s` unchanged. -/
def stripHead (s p : String) : String :=
  if goHasPre s p then (s.data.drop p.data.length).asString else s

/-- Split a character list at newline characters
(models `strings.Split s "\n"`, which yields count+1 pieces). -/
def splitNl : List Char → List (List Char)
  | [] => [[]]
  | c :: cs =>
    let r := splitNl cs
    if c = '\n' then [] :: r
    else
      match r with
      | [] => [[c]]
      | h :: t => (c :: h) :: t

/-- Models `strings.Split s "\n"` as a list of strings. -/
def goSplitLines (s : String) : List String := (splitNl s.data).map List.asString

/-! ### Template data values

The engine stores strings and booleans in its `map[string]interface` of
template data; rendering prints them the way Go formatting does. -/

/-- A value stored in the template-data mapping. -/
inductive TValue
  | vStr (s : String)
  | vBool (b : Bool)
deriving DecidableEq

/-- How Go `text/template` prints the values the engine stores. -/
def printTValue : TValue → String
  | .vStr s => s
  | .vBool true => "true"
  | .vBool false => "false"

/-- The template-data mapping (Go `map[string]interface`), modelled as an
association list; `lookupA` gives map-lookup semantics and `setA` gives
map-assignment semantics. -/
abbrev VarMap := List (String × TValue)

/-- Association-list lookup (first matching key). -/
def lookupA {κ α : Type} [DecidableEq κ] : List (κ × α) → κ → Option α
  | [], _ => none
  | (k2, v) :: rest, k => if k2 = k then some v else lookupA rest k

/-- Association-list update: overwrite the binding for `k` when present,
append it otherwise (Go map assignment). -/
def setA {κ α : Type} [DecidableEq κ] : List (κ × α) → κ → α → List (κ × α)
  | [], k, v => [(k, v)]
  | (k2, w) :: rest, k, v =>
    if k2 = k then (k2, v) :: rest else (k2, w) :: setA rest k v

/-! ### The modelled fragment of Go text/template

Both `internal/engine` and `internal/modules` parse template text with
`template.New("template").Parse` and execute it with `Execute` on a
`map[string]interface` value, never setting the `missingkey` option.  The
fragment those templates rely on — literal text and interpolation actions
(an action is an identifier reference between double braces) — is modelled
here.  Go renders an interpolation whose key is absent from the map with
the default missing-key policy: the placeholder `<no value>`, not an
error. -/

/-- One parsed piece of a template: a literal character or an
interpolation of the named key. -/
inductive Piece
  | lit (c : Char)
  | field (k : String)
deriving DecidableEq

/-- Split a character list at the first occurrence of a double closing
brace, returning the action text before it and the remainder after it. -/
def splitAtClose : List Char → Option (List Char × List Char)
  | c1 :: c2 :: rest =>
    if c1 = rbrace && c2 = rbrace then some ([], rest)
    else
      match splitAtClose (c2 :: rest) with
      | some (a, b) => some (c1 :: a, b)
      | none => none
  | _ => none

/-- Characters allowed in a template field identifier. -/
def isIdentChar (c : Char) : Bool := c.isAlphanum || c = '_'

/-- Parse the inside of an action: optional spaces, a dot, then a
nonempty identifier.  Other action forms are outside the modelled
fragment. -/
def parseField (act : List Char) : Option String :=
  match trimChars act with
  | c :: ks =>
    if c = '.' && !ks.isEmpty && ks.all isIdentChar then some ks.asString else none
  | [] => none

/-- Fuel-indexed template scanner: literal characters are kept as they
are; a double opening brace starts an action that must be closed by a
double closing brace. -/
def parseAux : Nat → List Char → Except String (List Piece)
  | 0, _ => .error "template parse: fuel exhausted"
  | _ + 1, [] => .ok []
  | fuel + 1, c :: cs =>
    if c = lbrace then
      match cs with
      | c2 :: cs2 =>
        if c2 = lbrace then
          match splitAtClose cs2 with
          | none => .error "template: unclosed action"
          | some (act, rest) =>
            match parseField act with
            | none => .error ("template: action outside the modelled fragment: " ++ act.asString)
            | some k =>
              match parseAux fuel rest with
              | .ok ps => .ok (.field k :: ps)
              | .error e => .error e
        else
          match parseAux fuel cs with
          | .ok ps => .ok (.lit c :: ps)
          | .error e => .error e
      | [] => .ok [.lit c]
    else
      match parseAux fuel cs with
      | .ok ps => .ok (.lit c :: ps)
      | .error e => .error e

/-- Parse template text (models `template.New("template").Parse`); the fuel
exceeds the input length, so it never runs out. -/
def parseTemplate (s : String) : Except String (List Piece) :=
  parseAux (s.data.length + 1) s.data

/-- The placeholder Go text/template prints for a missing map key under
the default missing-key policy. -/
def noValue : String := "<no value>"

/-- Evaluate one parsed piece against the template data
(models the corresponding step of `Execute`). -/
def execPiece (data : VarMap) : Piece → String
  | .lit c => String.mk [c]
  | .field k =>
    match lookupA data k with
    | some v => printTValue v
    | none => noValue

/-- Evaluate a parsed template against the template data. -/
def execPieces (data : VarMap) (ps : List Piece) : String :=
  String.join (ps.map (execPiece data))

/-! ### Filesystem model

Paths are lists of components (`filepath.Join` is list append); the
filesystem is a set of directories plus a finite map from file paths to
contents.  The modelled write operations are total: the environmental
failure modes of `os` calls (permissions, disk errors) are outside the
embedding. -/

/-- A slash-separated path, as its list of components. -/
abbrev Path := List String

/-- Filesystem state: existing directories and files with contents. -/
structure FS where
  dirs : List Path
  files : List (Path × String)
deriving DecidableEq

/-- Content of the file at `p`, when present. -/
def lookupFile (fs : FS) (p : Path) : Option String := lookupA fs.files p

/-- Models `os.WriteFile`: create the file or truncate and replace its content. -/
def writeFile (fs : FS) (p : Path) (content : String) : FS :=
  { fs with files := setA fs.files p content }

/-- Record a single directory as existing (no error when it already does). -/
def insertDir (fs : FS) (p : Path) : FS :=
  if p ∈ fs.dirs then fs else { fs with dirs := p :: fs.dirs }

/-- Models `os.MkdirAll`: create the directory and all missing parents;
idempotent. -/
def mkdirAll (fs : FS) (p : Path) : FS := p.inits.foldl insertDir fs

/-- The test `pathIsUnder base q` holds when `q` is `base` itself or lies beneath it. -/
def pathIsUnder : Path → Path → Bool
  | [], _ => true
  | _ :: _, [] => false
  | b :: bs, q :: qs => b = q && pathIsUnder bs qs

/-- Models `os.RemoveAll`: delete the path and everything beneath it. -/
def removeAll (fs : FS) (p : Path) : FS :=
  { dirs := fs.dirs.filter (fun q => !pathIsUnder p q),
    files := fs.files.filter (fun qc => !pathIsUnder p qc.1) }

/-- Whether `os.Stat` succeeds: the path exists as a directory or a file. -/
def statExists (fs : FS) (p : Path) : Bool :=
  p ∈ fs.dirs || (lookupFile fs p).isSome

/-- Parent directory of a path (`filepath.Dir`). -/
def parentDir (p : Path) : Path := p.dropLast

/-! ### Template store and overlay walker

`templatesFS` is an embedded read-only file tree shared by the engine and
modules packages; it is a parameter of the embedding.  A bundle is the
list of entries `fs.WalkDir` visits beneath a template path, in walk
order, with the root itself excluded (the walkers skip it explicitly). -/

/-- One walked entry of a template bundle: a directory or a file with its
content, each at its path relative to the bundle root. -/
inductive Entry
  | dir (rel : Path)
  | file (rel : Path) (content : String)
deriving DecidableEq

/-- A template bundle in walk order (bundle root excluded). -/
abbrev Bundle := List Entry

/-- The embedded template tree: bundle identifier to walked entries. -/
abbrev Store := Path → Bundle

/-- Render a path as the slash-joined string Go reports in messages. -/
def pathStr : Path → String
  | [] => ""
  | [s] => s
  | s :: rest => s ++ "/" ++ pathStr rest

/-- Last component of a path (empty for the empty path). -/
def lastComp (p : Path) : String :=
  match p.getLast? with
  | some s => s
  | none => ""

/-- Models `strings.HasSuffix path ".tmpl"` on the source path: the walked
source path ends with the marker suffix exactly when its last component
does, since the marker contains no separator. -/
def markedTmpl (rel : Path) : Bool := goHasSuf (lastComp rel) ".tmpl"

/-- Models `strings.TrimSuffix destFilePath ".tmpl"` expressed on components:
strip the marker from the last component. -/
def stripTmplPath : Path → Path
  | [] => []
  | [s] => [stripTail s ".tmpl"]
  | s :: rest => s :: stripTmplPath rest

/-- One `fs.WalkDir` callback step, shared verbatim by
`Engine.applyTemplate` (engine package) and `ApplyModuleTemplate`
(modules package), which differ only in the render function they call:
directories are created idempotently; a file whose source path carries
the `.tmpl` marker is rendered and written under the stripped name, with
a render failure reported against the source path; any other file is
copied byte-identically under its own name. -/
def applyEntry (render : String → VarMap → Except String String)
    (templatePath destPath : Path) (data : VarMap) (fs : FS) :
    Entry → Except String FS
  | .dir rel => .ok (mkdirAll fs (destPath ++ rel))
  | .file rel content =>
    let destFilePath := destPath ++ rel
    if markedTmpl rel then
      match render content data with
      | .error e =>
        .error ("failed to render template " ++ pathStr (templatePath ++ rel) ++ ": " ++ e)
      | .ok out =>
        let destFilePath2 := stripTmplPath destFilePath
        .ok (writeFile (mkdirAll fs (parentDir destFilePath2)) destFilePath2 out)
    else
      .ok (writeFile (mkdirAll fs (parentDir destFilePath)) destFilePath content)

/-- The `fs.WalkDir` fold over a bundle: entries are processed in walk
order and the first error aborts the walk (earlier writes remain). -/
def applyWalk (render : String → VarMap → Except String String)
    (templatePath destPath : Path) (data : VarMap) :
    Bundle → FS → Except String FS
  | [], fs => .ok fs
  | e :: rest, fs =>
    match applyEntry render templatePath destPath data fs e with
    | .error er => .error er
    | .ok fs2 => applyWalk render templatePath destPath data rest fs2

/-! ### Shared option and context records (modules package) -/

/-- Models `modules.InitOptions`: the validated capability selection. -/
structure InitOptions where
  ProjectName : String
  ModulePath : String
  Router : String
  Database : String
  OpenAPI : String
  SpecPath : String
  Docker : Bool
  Migrations : String
  Force : Bool
deriving DecidableEq

/-- Models `modules.Context`: the rendering context threaded through one run. -/
structure Context where
  projectPath : Path
  options : InitOptions
  templateData : VarMap
deriving DecidableEq

namespace Engine

/-- Models `Engine.renderTemplate` (engine package): parse the template text and
execute it against the data map, with the default text/template
missing-key behavior. -/
def renderTemplate (content : String) (data : VarMap) : Except String String :=
  match parseTemplate content with
  | .error e => .error e
  | .ok ps => .ok (execPieces data ps)

/-- Models `Engine.applyTemplate`: walk the bundle at `templatePath` in the
embedded template tree and apply each entry beneath `destPath`. -/
def applyTemplate (store : Store) (templatePath destPath : Path) (data : VarMap)
    (fs : FS) : Except String FS :=
  applyWalk renderTemplate templatePath destPath data (store templatePath) fs

end Engine

namespace Modules

/-- Models `renderTemplate` (modules package): textually identical to the engine
implementation — parse, then execute with the default missing-key
behavior. -/
def renderTemplate (content : String) (data : VarMap) : Except String String :=
  match parseTemplate content with
  | .error e => .error e
  | .ok ps => .ok (execPieces data ps)

/-- Models `ApplyModuleTemplate` (modules package): the same walk as
`Engine.applyTemplate`, calling the modules-package renderer. -/
def ApplyModuleTemplate (store : Store) (templatePath destPath : Path)
    (data : VarMap) (fs : FS) : Except String FS :=
  applyWalk renderTemplate templatePath destPath data (store templatePath) fs

/-- Models `modules.WriteFile`: create the parent directory, then write. -/
def WriteFile (fs : FS) (p : Path) (content : String) : FS :=
  writeFile (mkdirAll fs (parentDir p)) p content

/-- A registrable module: a name and an apply function.  The Go `Apply`
receives the context by pointer and could mutate it; the embedding
returns the context each apply leaves behind, so that not mutating it is
a provable property rather than a typing artifact. -/
structure Module where
  name : String
  apply : Store → Context → FS → Except String (FS × Context)

/-- The initial migration file `PostgresModule.Apply` writes when goose
migrations are selected. -/
def migrationSQL : String :=
  "-- +goose Up\n-- +goose StatementBegin\nCREATE TABLE IF NOT EXISTS users (\n    id SERIAL PRIMARY KEY,\n    email VARCHAR(255) UNIQUE NOT NULL,\n    created_at TIMESTAMP DEFAULT CURRENT_TIMESTAMP,\n    updated_at TIMESTAMP DEFAULT CURRENT_TIMESTAMP\n);\n-- +goose StatementEnd\n\n-- +goose Down\n-- +goose StatementBegin\nDROP TABLE IF EXISTS users;\n-- +goose StatementEnd\n"

/-- Models `PostgresModule.Apply`: apply the postgres bundle; when goose
migrations are enabled, additionally write the migrations directory
keeper file and the initial migration. -/
def postgresApply (store : Store) (ctx : Context) (fs : FS) :
    Except String (FS × Context) :=
  match ApplyModuleTemplate store ["files", "db", "postgres"] ctx.projectPath
      ctx.templateData fs with
  | .error e => .error ("failed to apply postgres template: " ++ e)
  | .ok fs1 =>
    if ctx.options.Migrations = "goose" then
      let fs2 := WriteFile fs1 (ctx.projectPath ++ ["migrations", ".gitkeep"]) ""
      let fs3 := WriteFile fs2 (ctx.projectPath ++ ["migrations", "00001_initial.sql"])
        migrationSQL
      .ok (fs3, ctx)
    else
      .ok (fs1, ctx)

/-- Models `MongoModule.Apply`: apply the mongo bundle. -/
def mongoApply (store : Store) (ctx : Context) (fs : FS) :
    Except String (FS × Context) :=
  match ApplyModuleTemplate store ["files", "db", "mongo"] ctx.projectPath
      ctx.templateData fs with
  | .error e => .error ("failed to apply mongo template: " ++ e)
  | .ok fs1 => .ok (fs1, ctx)

/-- The example OpenAPI specification `OpenAPIGenModule.Apply` writes when
a spec path was supplied, parameterized by the project name it embeds. -/
def specContentFor (projectName : String) : String :=
  "openapi: 3.0.0\ninfo:\n  title: " ++ projectName ++
  " API\n  version: 1.0.0\npaths:\n  /health:\n    get:\n      summary: Health check\n      responses:\n        \x27200\x27:\n          description: Service is healthy\n          content:\n            application/json:\n              schema:\n                type: object\n                properties:\n                  status:\n                    type: string\n  /api/v1/users:\n    get:\n      summary: List users\n      responses:\n        \x27200\x27:\n          description: List of users\n          content:\n            application/json:\n              schema:\n                type: array\n                items:\n                  type: object\n                  properties:\n                    id:\n                      type: integer\n                    email:\n                      type: string\n"

/-- The Makefile `OpenAPIGenModule.Apply` writes for code generation. -/
def genMakefileContent : String :=
  ".PHONY: generate\ngenerate:\n\tgo generate ./...\n\n.PHONY: api-gen\napi-gen:\n\toapi-codegen -package generated -generate types,chi-server,spec api/openapi.yaml > internal/api/generated/api.gen.go\n"

/-- Models `OpenAPIGenModule.Apply`: apply the gen bundle; when a spec path was
supplied, write the example spec; always write the generation Makefile. -/
def openAPIGenApply (store : Store) (ctx : Context) (fs : FS) :
    Except String (FS × Context) :=
  match ApplyModuleTemplate store ["files", "openapi", "gen"] ctx.projectPath
      ctx.templateData fs with
  | .error e => .error ("failed to apply openapi gen template: " ++ e)
  | .ok fs1 =>
    let fs2 :=
      if ctx.options.SpecPath ≠ "" then
        WriteFile fs1 (ctx.projectPath ++ ["api", "openapi.yaml"])
          (specContentFor ctx.options.ProjectName)
      else fs1
    let fs3 := WriteFile fs2 (ctx.projectPath ++ ["Makefile"]) genMakefileContent
    .ok (fs3, ctx)

/-- Models `OpenAPIManualModule.Apply`: apply the manual bundle. -/
def openAPIManualApply (store : Store) (ctx : Context) (fs : FS) :
    Except String (FS × Context) :=
  match ApplyModuleTemplate store ["files", "openapi", "manual"] ctx.projectPath
      ctx.templateData fs with
  | .error e => .error ("failed to apply openapi manual template: " ++ e)
  | .ok fs1 => .ok (fs1, ctx)

/-- Models `DockerModule.Apply`: apply the docker bundle. -/
def dockerApply (store : Store) (ctx : Context) (fs : FS) :
    Except String (FS × Context) :=
  match ApplyModuleTemplate store ["files", "docker"] ctx.projectPath
      ctx.templateData fs with
  | .error e => .error ("failed to apply docker template: " ++ e)
  | .ok fs1 => .ok (fs1, ctx)

/-- The record for `PostgresModule` with its name. -/
def postgresModule : Module := { name := "postgres", apply := postgresApply }

/-- The record for `MongoModule` with its name. -/
def mongoModule : Module := { name := "mongo", apply := mongoApply }

/-- The record for `OpenAPIGenModule` with its name. -/
def openAPIGenModule : Module := { name := "openapi-gen", apply := openAPIGenApply }

/-- The record for `OpenAPIManualModule` with its name. -/
def openAPIManualModule : Module := { name := "openapi-manual", apply := openAPIManualApply }

/-- The record for `DockerModule` with its name. -/
def dockerModule : Module := { name := "docker", apply := dockerApply }

/-- The two-level registry map produced by the `Register` calls in
`NewRegistry`. -/
def registryModules : List (String × List (String × Module)) :=
  [("db", [("postgres", postgresModule), ("mongo", mongoModule)]),
   ("openapi", [("gen", openAPIGenModule), ("manual", openAPIManualModule)]),
   ("docker", [("", dockerModule)])]

/-- Models `Registry.GetModule`: two-level lookup; an unknown category and an
unknown name both yield the explicit not-found result. -/
def GetModule (category nm : String) : Option Module :=
  match lookupA registryModules category with
  | some mods => lookupA mods nm
  | none => none

/-- The five modules registered at startup. -/
def allRegisteredModules : List Module :=
  [postgresModule, mongoModule, openAPIGenModule, openAPIManualModule, dockerModule]

end Modules

namespace Engine

/-- Models `Engine.validateInitOptions`: each enumerated field is checked against
its fixed domain, in the order router, database, openapi, migrations; the
first violation is reported with the offending value and the allowed set,
and no later field is checked. -/
def validateInitOptions (o : InitOptions) : Except String Unit :=
  if o.Router = "chi" ∨ o.Router = "gin" ∨ o.Router = "fiber" then
    if o.Database = "none" ∨ o.Database = "postgres" ∨ o.Database = "mongo" then
      if o.OpenAPI = "none" ∨ o.OpenAPI = "gen" ∨ o.OpenAPI = "manual" then
        if o.Migrations = "none" ∨ o.Migrations = "goose" then .ok ()
        else .error ("invalid migrations: " ++ o.Migrations ++ " (must be none or goose)")
      else .error ("invalid openapi: " ++ o.OpenAPI ++ " (must be none, gen, or manual)")
    else .error ("invalid database: " ++ o.Database ++ " (must be none, postgres, or mongo)")
  else .error ("invalid router: " ++ o.Router ++ " (must be chi, gin, or fiber)")

/-- The template-data map `InitProject` builds from the options. -/
def mkTemplateData (o : InitOptions) : VarMap :=
  [("ProjectName", .vStr o.ProjectName), ("ModulePath", .vStr o.ModulePath),
   ("Router", .vStr o.Router), ("Database", .vStr o.Database),
   ("OpenAPI", .vStr o.OpenAPI), ("Migrations", .vStr o.Migrations),
   ("HasDocker", .vBool o.Docker)]

/-- The rendering context `InitProject` constructs once, before the base
overlay is applied. -/
def mkInitContext (projectPath : Path) (o : InitOptions) : Context :=
  { projectPath := projectPath, options := o, templateData := mkTemplateData o }

/-- Outcomes of the external tool invocations of `runPostSteps`; the
`go fmt` outcome is absent because the code discards it. -/
structure ExtTools where
  goModInit : Except String Unit
  goModTidy : Except String Unit

/-- Models `Engine.runPostSteps`: `go mod init` failure is fatal, `go mod tidy`
failure is fatal, and `go fmt ./...` runs with its error ignored. -/
def runPostSteps (ext : ExtTools) : Except String Unit :=
  match ext.goModInit with
  | .error e => .error ("go mod init failed: " ++ e)
  | .ok _ =>
    match ext.goModTidy with
    | .error e => .error ("go mod tidy failed: " ++ e)
    | .ok _ => .ok ()

/-- The observation trace of one `InitProject` run: each overlay or module
application, labelled, with the context value it was handed.  This is
instrumentation on top of the source: it records arguments of calls the
code makes and does not alter the computed filesystem or result. -/
abbrev Trace := List (String × Context)

/-- Resolve a module from the registry and apply it, wrapping the
not-found and failure cases with the caller-supplied messages, as each of
the three module blocks of `InitProject` does. -/
def applyRegModule (store : Store) (category nm missingMsg failMsg : String)
    (ctx : Context) (fs : FS) : Except String (FS × Context) :=
  match Modules.GetModule category nm with
  | none => .error missingMsg
  | some m =>
    match m.apply store ctx fs with
    | .error e => .error (failMsg ++ e)
    | .ok r => .ok r

/-- One optional module block of `InitProject`: when the capability is
enabled, record the context handed to the module on the trace and apply
it; otherwise pass the state through. -/
def moduleStage (store : Store) (enabled : Bool) (category nm missingMsg failMsg : String)
    (st : FS × Context × Trace) : Except String (FS × Context) × Trace :=
  if enabled then
    (applyRegModule store category nm missingMsg failMsg st.2.1 st.1,
     st.2.2 ++ [(category, st.2.1)])
  else (.ok (st.1, st.2.1), st.2.2)

/-- The body of `Engine.InitProject` after validation and directory
preparation: build the context once, apply the base overlay, then the
database, OpenAPI and docker modules in that fixed order (each only when
selected), then run the post-generation steps, any failure being fatal
with the wrapping the source applies. -/
def initProjectPrepped (store : Store) (ext : ExtTools) (projectPath : Path)
    (o : InitOptions) (fsP : FS) : Except String FS × Trace :=
  let ctx := mkInitContext projectPath o
  match Engine.applyTemplate store ["files", "base"] projectPath ctx.templateData fsP with
  | .error e => (.error ("failed to apply base template: " ++ e), [("base", ctx)])
  | .ok fs1 =>
    match moduleStage store (o.Database ≠ "none") "db" o.Database
        ("database module " ++ o.Database ++ " not found")
        "failed to apply database module: " (fs1, ctx, [("base", ctx)]) with
    | (.error e, tr) => (.error e, tr)
    | (.ok (fs2, ctx2), tr2) =>
      match moduleStage store (o.OpenAPI ≠ "none") "openapi" o.OpenAPI
          ("openapi module " ++ o.OpenAPI ++ " not found")
          "failed to apply openapi module: " (fs2, ctx2, tr2) with
      | (.error e, tr) => (.error e, tr)
      | (.ok (fs3, ctx3), tr3) =>
        match moduleStage store o.Docker "docker" ""
            "docker module not found"
            "failed to apply docker module: " (fs3, ctx3, tr3) with
        | (.error e, tr) => (.error e, tr)
        | (.ok (fs4, _ctx4), tr4) =>
          match runPostSteps ext with
          | .error e => (.error ("post-generation steps failed: " ++ e), tr4)
          | .ok _ => (.ok fs4, tr4)

/-- Models `Engine.InitProject`: validate the options; when force-overwrite is
set, remove the destination recursively; create the destination
directory; then run the prepared body.  There is no check of an existing
destination in the non-force case — `MkdirAll` succeeds on an existing
directory and generation proceeds into it. -/
def InitProject (store : Store) (ext : ExtTools) (projectPath : Path)
    (o : InitOptions) (fs : FS) : Except String FS × Trace :=
  match validateInitOptions o with
  | .error e => (.error e, [])
  | .ok _ =>
    let fsP := if o.Force then mkdirAll (removeAll fs projectPath) projectPath
               else mkdirAll fs projectPath
    initProjectPrepped store ext projectPath o fsP

/-- The scan of `Engine.getModulePath` over the lines of go.mod: the
first line whose trimmed text begins with the module keyword yields the
trimmed remainder; otherwise the scan fails. -/
def findModuleLine : List String → Except String String
  | [] => .error "module path not found in go.mod"
  | line :: rest =>
    if goHasPre (goTrim line) "module " then
      .ok (goTrim (stripHead (goTrim line) "module "))
    else findModuleLine rest

/-- Models `Engine.getModulePath`: read `projectPath/go.mod` (failure to read is
an error, with the environmental detail of the wrapped `os` error
elided), split it into lines, and scan for the module declaration. -/
def getModulePath (fs : FS) (projectPath : Path) : Except String String :=
  match lookupFile fs (projectPath ++ ["go.mod"]) with
  | none => .error "failed to read go.mod"
  | some content => findModuleLine (goSplitLines content)

/-- Models `engine.AddOptions` (fields `Module`, `Type`, `Mode`, `Spec`; the
second and third are renamed because `Type` is reserved in Lean). -/
structure AddOptions where
  Module : String
  Typ : String
  Mode : String
  Spec : String
deriving DecidableEq

/-- Models `Engine.AddModule`: recover the module path from go.mod, build a
fresh context carrying only it, resolve the requested module (db requires
a type, openapi requires a mode, docker requires nothing; anything else
is unknown), mutate the context with the chosen selector, apply the
module, and then run `go mod tidy` — whose outcome the code only prints
as a warning on failure, so the returned result does not depend on it. -/
def AddModule (store : Store) (_tidy : Except String Unit) (projectPath : Path)
    (opts : AddOptions) (fs : FS) : Except String FS :=
  match getModulePath fs projectPath with
  | .error e => .error e
  | .ok modPath =>
    let ctx0 : Context :=
      { projectPath := projectPath,
        options := { ProjectName := "", ModulePath := modPath, Router := "",
                     Database := "", OpenAPI := "", SpecPath := "", Docker := false,
                     Migrations := "", Force := false },
        templateData := [("ModulePath", .vStr modPath)] }
    let selected : Except String (Option Modules.Module × Context) :=
      if opts.Module = "db" then
        if opts.Typ = "" then .error "--type flag is required for db module"
        else
          .ok (Modules.GetModule "db" opts.Typ,
               { ctx0 with
                 options := { ctx0.options with Database := opts.Typ },
                 templateData := setA ctx0.templateData "Database" (.vStr opts.Typ) })
      else if opts.Module = "openapi" then
        if opts.Mode = "" then .error "--mode flag is required for openapi module"
        else
          .ok (Modules.GetModule "openapi" opts.Mode,
               { ctx0 with
                 options := { ctx0.options with OpenAPI := opts.Mode, SpecPath := opts.Spec },
                 templateData := setA ctx0.templateData "OpenAPI" (.vStr opts.Mode) })
      else if opts.Module = "docker" then
        .ok (Modules.GetModule "docker" "",
             { ctx0 with
               options := { ctx0.options with Docker := true },
               templateData := setA ctx0.templateData "HasDocker" (.vBool true) })
      else .error ("unknown module: " ++ opts.Module)
    match selected with
    | .error e => .error e
    | .ok (modOpt, ctx) =>
      match modOpt with
      | none => .error ("module not found: " ++ opts.Module)
      | some m =>
        match m.apply store ctx fs with
        | .error e => .error ("failed to apply module: " ++ e)
        | .ok (fs2, _) => .ok fs2

end Engine

namespace Cmd

/-- The core of the `init` command handler (`initCmd.RunE`): require the
module flag, require a spec when generating OpenAPI, and reject an
existing destination — any existing path, whether empty or not — unless
force is set; only then call `Engine.InitProject`. -/
def runInitCmd (store : Store) (ext : Engine.ExtTools)
    (projectName modulePathFlag routerFlag dbFlag openapiFlag specFlag : String)
    (dockerFlag : Bool) (migrationsFlag : String) (forceFlag : Bool)
    (fs : FS) : Except String FS :=
  if modulePathFlag = "" then .error "--module flag is required"
  else if openapiFlag = "gen" ∧ specFlag = "" then
    .error "--spec flag is required when using --openapi gen"
  else
    let projectPath : Path := [projectName]
    if statExists fs projectPath = true ∧ forceFlag = false then
      .error ("directory " ++ projectName ++ " already exists (use --force to overwrite)")
    else
      let opts : InitOptions :=
        { ProjectName := projectName, ModulePath := modulePathFlag,
          Router := routerFlag, Database := dbFlag, OpenAPI := openapiFlag,
          SpecPath := specFlag, Docker := dockerFlag,
          Migrations := migrationsFlag, Force := forceFlag }
      match (Engine.InitProject store ext projectPath opts fs).1 with
      | .error e => .error ("failed to initialize project: " ++ e)
      | .ok fs2 => .ok fs2

end Cmd

/-! ### Concrete fixtures for counterexamples and witnesses -/

/-- External tool outcomes in which every invoked tool succeeds. -/
def extOK : Engine.ExtTools := { goModInit := .ok (), goModTidy := .ok () }

/-- A template store in which every bundle is empty. -/
def emptyStore : Store := fun _ => []

/-- The empty filesystem. -/
def emptyFS : FS := { dirs := [], files := [] }

/-- Valid options selecting the chi router and nothing else, without
force-overwrite. -/
def chiOpts : InitOptions :=
  { ProjectName := "p", ModulePath := "example.com/p", Router := "chi",
    Database := "none", OpenAPI := "none", SpecPath := "", Docker := false,
    Migrations := "none", Force := false }

/-- A filesystem in which the destination directory `proj` already exists
and is non-empty. -/
def busyDestFS : FS := { dirs := [["proj"]], files := [(["proj", "old.txt"], "x")] }

/-- A store whose base bundle holds one static file. -/
def oneFileStore : Store :=
  fun tp => if tp = ["files", "base"] then [Entry.file ["a.txt"] "hello"] else []

/-- A filesystem holding a go.mod with a module declaration for `proj`. -/
def goModFS : FS :=
  { dirs := [["proj"]], files := [(["proj", "go.mod"], "module example.com/m\n\ngo 1.22\n")] }

/-- A filesystem whose go.mod lacks a module declaration. -/
def noModFS : FS :=
  { dirs := [["proj"]], files := [(["proj", "go.mod"], "go 1.22\n")] }

/-- Fixture: `chiOpts` with an out-of-domain router. -/
def badRouterOpts : InitOptions := { chiOpts with Router := "hyper" }

/-- Fixture: `chiOpts` with an out-of-domain database. -/
def badDbOpts : InitOptions := { chiOpts with Database := "oracle" }

/-- Fixture: `chiOpts` with an out-of-domain OpenAPI mode. -/
def badOpenAPIOpts : InitOptions := { chiOpts with OpenAPI := "yaml" }

/-- Fixture: `chiOpts` with an out-of-domain migrations tool. -/
def badMigrationsOpts : InitOptions := { chiOpts with Migrations := "flyway" }

/-- Fixture: `chiOpts` with force-overwrite set. -/
def forceOpts : InitOptions := { chiOpts with Force := true }

/-- The add-command options requesting the docker module. -/
def dockerAddOpts : Engine.AddOptions :=
  { Module := "docker", Typ := "", Mode := "", Spec := "" }

/-- A store whose base bundle holds one marked template file. -/
def tmplStore : Store :=
  fun tp =>
    if tp = ["files", "base"] then [Entry.file ["f.txt.tmpl"] "Hi \x7b\x7b.Name\x7d\x7d"]
    else []

/-- Template data binding Name. -/
def witData : VarMap := [("Name", .vStr "W")]

/-- A bundle holding one static file at `x.txt`. -/
def bundleA : Bundle := [Entry.file ["x.txt"] "aaa"]

/-- A bundle holding one marked template file whose destination is also
`x.txt`. -/
def bundleB : Bundle := [Entry.file ["x.txt.tmpl"] "b\x7b\x7b.V\x7d\x7db"]

/-- Template data binding V. -/
def witDataV : VarMap := [("V", .vStr "X")]

/-- The filesystem after applying `bundleA` beneath `d` to the empty
filesystem. -/
def fsAfterA : FS := { dirs := [["d"], []], files := [(["d", "x.txt"], "aaa")] }

/-- The filesystem after additionally applying `bundleB` beneath `d`. -/
def fsAfterB : FS := { dirs := [["d"], []], files := [(["d", "x.txt"], "bXb")] }

/-! ### Derived notions used by theorem statements -/

/-- The destination-relative name an overlay file entry lands under: the
relative source name with the marker suffix stripped when present. -/
def destRel (rel : Path) : Path :=
  if markedTmpl rel then stripTmplPath rel else rel

/-- The absolute path a walked entry writes, when it writes one. -/
def writeTarget (destPath : Path) : Entry → Option Path
  | .dir _ => none
  | .file rel _ =>
    some (if markedTmpl rel then stripTmplPath (destPath ++ rel) else destPath ++ rel)

/-- The bytes an overlay application produces from a file entry: the
render result for a marked file, the source bytes unchanged otherwise. -/
def producedBytes (render : String → VarMap → Except String String)
    (data : VarMap) (rel : Path) (c : String) : Except String String :=
  if markedTmpl rel then render c data else .ok c

/-! ### Helper lemmas: association lists and filesystem operations -/

theorem lookupA_setA_same {κ α : Type} [DecidableEq κ] (l : List (κ × α)) (k : κ)
    (v : α) : lookupA (setA l k v) k = some v := by
  induction l with
  | nil => simp [setA, lookupA]
  | cons hd tl ih =>
    obtain ⟨k2, w⟩ := hd
    by_cases h : k2 = k <;> simp [setA, lookupA, h, ih]

theorem lookupA_setA_other {κ α : Type} [DecidableEq κ] (l : List (κ × α))
    (k q : κ) (v : α) (h : q ≠ k) : lookupA (setA l k v) q = lookupA l q := by
  induction l with
  | nil =>
    have hkq : ¬ k = q := fun hk => h hk.symm
    simp [setA, lookupA, hkq]
  | cons hd tl ih =>
    obtain ⟨k2, w⟩ := hd
    by_cases h2 : k2 = k
    · subst h2
      have hkq : ¬ k2 = q := fun hk => h hk.symm
      simp [setA, lookupA, hkq]
    · simp [setA, lookupA, h2, ih]

theorem insertDir_files (fs : FS) (q : Path) : (insertDir fs q).files = fs.files := by
  unfold insertDir
  split <;> rfl

theorem foldl_insertDir_files (l : List Path) (fs : FS) :
    (l.foldl insertDir fs).files = fs.files := by
  induction l generalizing fs with
  | nil => rfl
  | cons h t ih => simp [List.foldl, ih, insertDir_files]

theorem mkdirAll_files (fs : FS) (p : Path) : (mkdirAll fs p).files = fs.files :=
  foldl_insertDir_files _ _

theorem lookupFile_mkdirAll (fs : FS) (p q : Path) :
    lookupFile (mkdirAll fs p) q = lookupFile fs q := by
  simp [lookupFile, mkdirAll_files]

theorem lookupFile_writeFile_same (fs : FS) (p : Path) (c : String) :
    lookupFile (writeFile fs p c) p = some c :=
  lookupA_setA_same _ _ _

theorem lookupFile_writeFile_other (fs : FS) (p q : Path) (c : String) (h : q ≠ p) :
    lookupFile (writeFile fs p c) q = lookupFile fs q :=
  lookupA_setA_other _ _ _ _ h

/-! ### Helper lemmas: the overlay walker -/

theorem applyWalk_append (r : String → VarMap → Except String String)
    (tp dp : Path) (d : VarMap) (A B : Bundle) (fs : FS) :
    applyWalk r tp dp d (A ++ B) fs =
      match applyWalk r tp dp d A fs with
      | .error e => .error e
      | .ok fs1 => applyWalk r tp dp d B fs1 := by
  induction A generalizing fs with
  | nil => simp [applyWalk]
  | cons e rest ih =>
    simp only [List.cons_append, applyWalk]
    cases applyEntry r tp dp d fs e <;> simp [ih]

theorem stripTmplPath_append (dest rel : Path) (h : rel ≠ []) :
    stripTmplPath (dest ++ rel) = dest ++ stripTmplPath rel := by
  induction dest with
  | nil => simp
  | cons s rest ih =>
    cases hrr : rest ++ rel with
    | nil => exact absurd (List.append_eq_nil.mp hrr).2 h
    | cons a b =>
      simp only [List.cons_append, hrr, stripTmplPath]
      rw [← hrr, ih]

theorem applyWalk_preserves_lookup (r : String → VarMap → Except String String)
    (tp dp : Path) (d : VarMap) (B : Bundle) (fs fs2 : FS) (tgt : Path)
    (hw : ∀ e ∈ B, writeTarget dp e ≠ some tgt)
    (h : applyWalk r tp dp d B fs = .ok fs2) :
    lookupFile fs2 tgt = lookupFile fs tgt := by
  induction B generalizing fs with
  | nil =>
    simp only [applyWalk] at h
    cases h
    rfl
  | cons e rest ih =>
    simp only [applyWalk] at h
    cases hstep : applyEntry r tp dp d fs e with
    | error er => rw [hstep] at h; cases h
    | ok fs1 =>
      rw [hstep] at h
      have hrest : lookupFile fs2 tgt = lookupFile fs1 tgt :=
        ih _ (fun x hx => hw x (List.mem_cons_of_mem _ hx)) h
      rw [hrest]
      have hwe := hw e (List.mem_cons_self _ _)
      cases e with
      | dir rel =>
        simp only [applyEntry] at hstep
        cases hstep
        exact lookupFile_mkdirAll _ _ _
      | file rel c =>
        simp only [applyEntry, writeTarget] at hstep hwe
        by_cases hm : markedTmpl rel = true
        · rw [if_pos hm] at hstep hwe
          cases hr : r c d with
          | error er => rw [hr] at hstep; cases hstep
          | ok out =>
            rw [hr] at hstep
            cases hstep
            rw [lookupFile_writeFile_other _ _ _ _ (fun hq => hwe (by rw [hq])),
              lookupFile_mkdirAll]
        · rw [if_neg hm] at hstep hwe
          cases hstep
          rw [lookupFile_writeFile_other _ _ _ _ (fun hq => hwe (by rw [hq])),
            lookupFile_mkdirAll]

/-! ### Helper lemmas: no registered module mutates the context -/

theorem postgresApply_ctx (store : Store) (c : Context) (f : FS) (r : FS × Context)
    (h : Modules.postgresApply store c f = .ok r) : r.2 = c := by
  unfold Modules.postgresApply at h
  split at h
  · cases h
  · split at h <;> (cases h; rfl)

theorem mongoApply_ctx (store : Store) (c : Context) (f : FS) (r : FS × Context)
    (h : Modules.mongoApply store c f = .ok r) : r.2 = c := by
  unfold Modules.mongoApply at h
  split at h
  · cases h
  · cases h; rfl

theorem openAPIGenApply_ctx (store : Store) (c : Context) (f : FS) (r : FS × Context)
    (h : Modules.openAPIGenApply store c f = .ok r) : r.2 = c := by
  unfold Modules.openAPIGenApply at h
  split at h
  · cases h
  · cases h; rfl

theorem openAPIManualApply_ctx (store : Store) (c : Context) (f : FS) (r : FS × Context)
    (h : Modules.openAPIManualApply store c f = .ok r) : r.2 = c := by
  unfold Modules.openAPIManualApply at h
  split at h
  · cases h
  · cases h; rfl

theorem dockerApply_ctx (store : Store) (c : Context) (f : FS) (r : FS × Context)
    (h : Modules.dockerApply store c f = .ok r) : r.2 = c := by
  unfold Modules.dockerApply at h
  split at h
  · cases h
  · cases h; rfl

theorem registered_apply_ctx (m : Modules.Module)
    (hm : m ∈ Modules.allRegisteredModules) (store : Store) (c : Context) (f : FS)
    (r : FS × Context) (h : m.apply store c f = .ok r) : r.2 = c := by
  simp only [Modules.allRegisteredModules, List.mem_cons, List.mem_singleton] at hm
  rcases hm with hm | hm | hm | hm | hm | hm
  · subst hm; exact postgresApply_ctx _ _ _ _ h
  · subst hm; exact mongoApply_ctx _ _ _ _ h
  · subst hm; exact openAPIGenApply_ctx _ _ _ _ h
  · subst hm; exact openAPIManualApply_ctx _ _ _ _ h
  · subst hm; exact dockerApply_ctx _ _ _ _ h
  · cases hm

theorem GetModule_mem (category nm : String) (m : Modules.Module)
    (h : Modules.GetModule category nm = some m) :
    m ∈ Modules.allRegisteredModules := by
  unfold Modules.GetModule Modules.registryModules at h
  simp only [lookupA] at h
  split at h
  · rename_i mods heq
    split at heq
    · cases heq
      simp only [lookupA] at h
      split at h
      · cases h; simp [Modules.allRegisteredModules]
      · split at h
        · cases h; simp [Modules.allRegisteredModules]
        · cases h
    · split at heq
      · cases heq
        simp only [lookupA] at h
        split at h
        · cases h; simp [Modules.allRegisteredModules]
        · split at h
          · cases h; simp [Modules.allRegisteredModules]
          · cases h
      · split at heq
        · cases heq
          simp only [lookupA] at h
          split at h
          · cases h; simp [Modules.allRegisteredModules]
          · cases h
        · cases heq
  · cases h

theorem applyRegModule_ok_ctx (store : Store) (category nm m1 m2 : String)
    (ctx : Context) (fs : FS) (fs2 : FS) (ctx2 : Context)
    (h : Engine.applyRegModule store category nm m1 m2 ctx fs = .ok (fs2, ctx2)) :
    ctx2 = ctx := by
  unfold Engine.applyRegModule at h
  split at h
  · cases h
  · rename_i m hGet
    split at h
    · cases h
    · rename_i r happ
      cases h
      exact registered_apply_ctx m (GetModule_mem _ _ _ hGet) _ _ _ _ happ

theorem moduleStage_spec (store : Store) (en : Bool) (category nm m1 m2 : String)
    (fs : FS) (ctx : Context) (tr : Engine.Trace)
    (res : Except String (FS × Context)) (tr2 : Engine.Trace)
    (h : Engine.moduleStage store en category nm m1 m2 (fs, ctx, tr) = (res, tr2)) :
    (∀ e ∈ tr2, e ∈ tr ∨ e.2 = ctx) ∧
      ∀ fs2 ctx2, res = .ok (fs2, ctx2) → ctx2 = ctx := by
  unfold Engine.moduleStage at h
  by_cases hen : en = true
  · rw [if_pos hen] at h
    cases h
    constructor
    · intro e he
      rcases List.mem_append.mp he with he2 | he2
      · exact Or.inl he2
      · right
        rw [List.mem_singleton.mp he2]
    · intro fs2 ctx2 hres
      exact applyRegModule_ok_ctx _ _ _ _ _ _ _ _ _ hres
  · rw [if_neg hen] at h
    cases h
    constructor
    · exact fun e he => Or.inl he
    · intro fs2 ctx2 hres
      cases hres
      rfl

/-! ### Helper lemmas: the go.mod line scan -/

theorem findModuleLine_none (ls : List String)
    (h : ∀ l ∈ ls, goHasPre (goTrim l) "module " = false) :
    Engine.findModuleLine ls = .error "module path not found in go.mod" := by
  induction ls with
  | nil => rfl
  | cons l rest ih =>
    unfold Engine.findModuleLine
    rw [h l (List.mem_cons_self _ _)]
    simp only [Bool.false_eq_true, if_false]
    exact ih (fun x hx => h x (List.mem_cons_of_mem _ hx))

theorem findModuleLine_first (pre : List String) (l : String) (post : List String)
    (hpre : ∀ x ∈ pre, goHasPre (goTrim x) "module " = false)
    (hl : goHasPre (goTrim l) "module " = true) :
    Engine.findModuleLine (pre ++ l :: post)
      = .ok (goTrim (stripHead (goTrim l) "module ")) := by
  induction pre with
  | nil =>
    simp only [List.nil_append]
    unfold Engine.findModuleLine
    rw [if_pos hl]
  | cons x rest ih =>
    simp only [List.cons_append]
    unfold Engine.findModuleLine
    rw [hpre x (List.mem_cons_self _ _)]
    simp only [Bool.false_eq_true, if_false]
    exact ih (fun y hy => hpre y (List.mem_cons_of_mem _ hy))

/-! ### Claim theorems -/

/-- C2, counterexample: rendering a template that interpolates a variable
absent from the mapping does not return an error; it succeeds with the
placeholder text substituted. -/
theorem render_missing_key_cex :
    Engine.renderTemplate "Hello \x7b\x7b.Name\x7d\x7d" [] = .ok "Hello <no value>" := by
  decide

/-- C2, amended: the renderer never sets the strict missing-key option,
so a variable whose key is absent from the mapping is not a hard error —
whenever the template parses, rendering succeeds, and an interpolation of
an absent key produces the literal placeholder text. -/
theorem render_missing_key_placeholder :
    ∀ (t : String) (data : VarMap) (ps : List Piece) (k : String),
      parseTemplate t = .ok ps → lookupA data k = none →
      Engine.renderTemplate t data = .ok (execPieces data ps)
      ∧ execPiece data (Piece.field k) = noValue := by
  intro t data ps k h hk
  constructor
  · unfold Engine.renderTemplate
    rw [h]
  · simp only [execPiece]
    rw [hk]

/-- C2, witness for the amended theorem at a concrete template. -/
theorem render_missing_key_placeholder_witness :
    Engine.renderTemplate "\x7b\x7b.X\x7d\x7d" [] = .ok (execPieces [] [Piece.field "X"])
    ∧ execPiece [] (Piece.field "X") = noValue :=
  render_missing_key_placeholder "\x7b\x7b.X\x7d\x7d" [] [Piece.field "X"] "X"
    (by decide) (by decide)

/-- C3, counterexample: a run of AddModule in which the dependency
resolution step fails still returns success — the failure is not fatal. -/
theorem addModule_tidy_failure_cex :
    Engine.AddModule emptyStore (.error "network failure") ["proj"] dockerAddOpts goModFS
      = .ok goModFS := by
  decide

/-- C3, amended: after the single resolved module is applied, the only
post-step is dependency resolution (formatting never runs), but its
failure is downgraded to a printed warning — the result of AddModule does
not depend on the dependency-resolution outcome at all. -/
theorem addModule_tidy_independent :
    ∀ (store : Store) (t1 t2 : Except String Unit) (p : Path)
      (opts : Engine.AddOptions) (fs : FS),
      Engine.AddModule store t1 p opts fs = Engine.AddModule store t2 p opts fs :=
  fun _ _ _ _ _ _ => rfl

/-- C4: validation is fail-fast in the order router, database, openapi,
migrations.  An out-of-domain router makes InitProject fail immediately
with the router message and the empty trace — no overlay or module is
applied and no filesystem value is produced — regardless of every other
field; and each later field is reported only when all earlier fields are
in domain. -/
theorem validateInit_fail_fast :
    (∀ (store : Store) (ext : Engine.ExtTools) (p : Path) (o : InitOptions) (fs : FS),
      ¬(o.Router = "chi" ∨ o.Router = "gin" ∨ o.Router = "fiber") →
      Engine.InitProject store ext p o fs
        = (.error ("invalid router: " ++ o.Router ++ " (must be chi, gin, or fiber)"), []))
    ∧ (∀ o : InitOptions, (o.Router = "chi" ∨ o.Router = "gin" ∨ o.Router = "fiber") →
        ¬(o.Database = "none" ∨ o.Database = "postgres" ∨ o.Database = "mongo") →
        Engine.validateInitOptions o
          = .error ("invalid database: " ++ o.Database ++ " (must be none, postgres, or mongo)"))
    ∧ (∀ o : InitOptions, (o.Router = "chi" ∨ o.Router = "gin" ∨ o.Router = "fiber") →
        (o.Database = "none" ∨ o.Database = "postgres" ∨ o.Database = "mongo") →
        ¬(o.OpenAPI = "none" ∨ o.OpenAPI = "gen" ∨ o.OpenAPI = "manual") →
        Engine.validateInitOptions o
          = .error ("invalid openapi: " ++ o.OpenAPI ++ " (must be none, gen, or manual)"))
    ∧ (∀ o : InitOptions, (o.Router = "chi" ∨ o.Router = "gin" ∨ o.Router = "fiber") →
        (o.Database = "none" ∨ o.Database = "postgres" ∨ o.Database = "mongo") →
        (o.OpenAPI = "none" ∨ o.OpenAPI = "gen" ∨ o.OpenAPI = "manual") →
        ¬(o.Migrations = "none" ∨ o.Migrations = "goose") →
        Engine.validateInitOptions o
          = .error ("invalid migrations: " ++ o.Migrations ++ " (must be none or goose)")) := by
  refine ⟨?_, ?_, ?_, ?_⟩
  · intro store ext p o fs hr
    simp [Engine.InitProject, Engine.validateInitOptions, if_neg hr]
  · intro o hr hd
    simp [Engine.validateInitOptions, if_pos hr, if_neg hd]
  · intro o hr hd ho
    simp [Engine.validateInitOptions, if_pos hr, if_pos hd, if_neg ho]
  · intro o hr hd ho hm
    simp [Engine.validateInitOptions, if_pos hr, if_pos hd, if_pos ho, if_neg hm]

/-- C4, witness: each conjunct applied at a concrete options record. -/
theorem validateInit_fail_fast_witness :
    Engine.InitProject emptyStore extOK ["p"] badRouterOpts emptyFS
      = (.error ("invalid router: " ++ badRouterOpts.Router ++ " (must be chi, gin, or fiber)"), [])
    ∧ Engine.validateInitOptions badDbOpts
      = .error ("invalid database: " ++ badDbOpts.Database ++ " (must be none, postgres, or mongo)")
    ∧ Engine.validateInitOptions badOpenAPIOpts
      = .error ("invalid openapi: " ++ badOpenAPIOpts.OpenAPI ++ " (must be none, gen, or manual)")
    ∧ Engine.validateInitOptions badMigrationsOpts
      = .error ("invalid migrations: " ++ badMigrationsOpts.Migrations ++ " (must be none or goose)") :=
  ⟨validateInit_fail_fast.1 _ _ _ _ _ (by decide),
   validateInit_fail_fast.2.1 _ (by decide) (by decide),
   validateInit_fail_fast.2.2.1 _ (by decide) (by decide) (by decide),
   validateInit_fail_fast.2.2.2 _ (by decide) (by decide) (by decide) (by decide)⟩

/-- C8: getModulePath returns the module path extracted from the first
line of go.mod whose trimmed text begins with the module keyword; an
unreadable file or the absence of such a line is an error, never a
defaulted success. -/
theorem getModulePath_spec :
    ∀ (fs : FS) (p : Path),
      (lookupFile fs (p ++ ["go.mod"]) = none →
        Engine.getModulePath fs p = .error "failed to read go.mod")
      ∧ ∀ content, lookupFile fs (p ++ ["go.mod"]) = some content →
          ((∀ l ∈ goSplitLines content, goHasPre (goTrim l) "module " = false) →
            Engine.getModulePath fs p = .error "module path not found in go.mod")
          ∧ ∀ (pre : List String) (l : String) (post : List String),
              goSplitLines content = pre ++ l :: post →
              (∀ x ∈ pre, goHasPre (goTrim x) "module " = false) →
              goHasPre (goTrim l) "module " = true →
              Engine.getModulePath fs p = .ok (goTrim (stripHead (goTrim l) "module ")) := by
  intro fs p
  constructor
  · intro h
    unfold Engine.getModulePath
    rw [h]
  · intro content hc
    constructor
    · intro hnone
      unfold Engine.getModulePath
      rw [hc]
      exact findModuleLine_none _ hnone
    · intro pre l post hsplit hpre hl
      unfold Engine.getModulePath
      rw [hc]
      show Engine.findModuleLine (goSplitLines content) = _
      rw [hsplit]
      exact findModuleLine_first pre l post hpre hl

/-- C8, witness: the unreadable, missing-declaration, and first-match
cases at concrete filesystems. -/
theorem getModulePath_spec_witness :
    Engine.getModulePath emptyFS ["proj"] = .error "failed to read go.mod"
    ∧ Engine.getModulePath noModFS ["proj"] = .error "module path not found in go.mod"
    ∧ Engine.getModulePath goModFS ["proj"]
        = .ok (goTrim (stripHead (goTrim "module example.com/m") "module ")) :=
  ⟨(getModulePath_spec emptyFS ["proj"]).1 (by decide),
   ((getModulePath_spec noModFS ["proj"]).2 "go 1.22\n" (by decide)).1 (by decide),
   ((getModulePath_spec goModFS ["proj"]).2 "module example.com/m\n\ngo 1.22\n"
     (by decide)).2 [] "module example.com/m" ["", "go 1.22", ""]
     (by decide) (by decide) (by decide)⟩

/-- C9: the renderer is a pure, deterministic function of its two inputs —
equal template text and equal variable mappings always yield equal
results. -/
theorem renderTemplate_deterministic :
    ∀ (t1 t2 : String) (d1 d2 : VarMap), t1 = t2 → d1 = d2 →
      Engine.renderTemplate t1 d1 = Engine.renderTemplate t2 d2 := by
  intro t1 t2 d1 d2 h1 h2
  subst h1
  subst h2
  rfl

/-- C9, witness at a concrete template and mapping. -/
theorem renderTemplate_deterministic_witness :
    Engine.renderTemplate "Hello \x7b\x7b.Name\x7d\x7d" [("Name", .vStr "World")]
      = Engine.renderTemplate "Hello \x7b\x7b.Name\x7d\x7d" [("Name", .vStr "World")] :=
  renderTemplate_deterministic _ _ _ _ rfl rfl

/-- C10: the engine-package renderer and the modules-package renderer are
extensionally equal — every input is rendered to the same result by
both. -/
theorem renderers_extensionally_equal :
    ∀ (content : String) (data : VarMap),
      Engine.renderTemplate content data = Modules.renderTemplate content data :=
  fun _ _ => rfl

/-- C1, counterexample: with force-overwrite off and an existing,
non-empty destination, InitProject does not fail before writing — the run
succeeds and creates a file beneath the occupied destination. -/
theorem initProject_no_conflict_check_cex :
    chiOpts.Force = false
    ∧ lookupFile busyDestFS ["proj", "old.txt"] = some "x"
    ∧ (match (Engine.InitProject oneFileStore extOK ["proj"] chiOpts busyDestFS).1 with
       | .ok fs2 => lookupFile fs2 ["proj", "a.txt"]
       | .error _ => none) = some "hello" := by
  refine ⟨rfl, by decide, by decide⟩

/-- C1, amended: when force-overwrite is set, the destination is removed
recursively and recreated before generation; when it is not set,
InitProject itself performs no existing-destination check — the
idempotent directory creation preserves every pre-existing file and
generation proceeds into the destination — while the rejection of an
existing destination (any existing path, empty or not) is enforced by the
CLI init command before InitProject is invoked. -/
theorem initProject_force_prep_and_no_conflict_check :
    (∀ (store : Store) (ext : Engine.ExtTools) (p : Path) (o : InitOptions) (fs : FS),
      Engine.validateInitOptions o = .ok () → o.Force = true →
      Engine.InitProject store ext p o fs
        = Engine.initProjectPrepped store ext p o (mkdirAll (removeAll fs p) p))
    ∧ (∀ (store : Store) (ext : Engine.ExtTools) (p : Path) (o : InitOptions) (fs : FS),
      Engine.validateInitOptions o = .ok () → o.Force = false →
      Engine.InitProject store ext p o fs
        = Engine.initProjectPrepped store ext p o (mkdirAll fs p)
      ∧ (mkdirAll fs p).files = fs.files)
    ∧ (∀ (store : Store) (ext : Engine.ExtTools) (pn mp r d oa sp : String)
        (dk : Bool) (mg : String) (fs : FS),
        mp ≠ "" → ¬(oa = "gen" ∧ sp = "") → statExists fs [pn] = true →
        Cmd.runInitCmd store ext pn mp r d oa sp dk mg false fs
          = .error ("directory " ++ pn ++ " already exists (use --force to overwrite)")) := by
  refine ⟨?_, ?_, ?_⟩
  · intro store ext p o fs hv hf
    unfold Engine.InitProject
    rw [hv]
    show (let fsP := if o.Force = true then mkdirAll (removeAll fs p) p else mkdirAll fs p
          Engine.initProjectPrepped store ext p o fsP) = _
    rw [if_pos hf]
  · intro store ext p o fs hv hf
    constructor
    · unfold Engine.InitProject
      rw [hv]
      show (let fsP := if o.Force = true then mkdirAll (removeAll fs p) p else mkdirAll fs p
            Engine.initProjectPrepped store ext p o fsP) = _
      rw [if_neg (by rw [hf]; exact Bool.false_ne_true)]
    · exact mkdirAll_files fs p
  · intro store ext pn mp r d oa sp dk mg fs hmp hoa hstat
    unfold Cmd.runInitCmd
    rw [if_neg hmp, if_neg hoa, if_pos ⟨hstat, rfl⟩]

/-- C1, witness: the force preparation, the non-force pass-through on an
occupied destination, and the CLI rejection, each at concrete inputs. -/
theorem initProject_force_prep_witness :
    Engine.InitProject emptyStore extOK ["p"] forceOpts emptyFS
      = Engine.initProjectPrepped emptyStore extOK ["p"] forceOpts
          (mkdirAll (removeAll emptyFS ["p"]) ["p"])
    ∧ (Engine.InitProject oneFileStore extOK ["proj"] chiOpts busyDestFS
        = Engine.initProjectPrepped oneFileStore extOK ["proj"] chiOpts
            (mkdirAll busyDestFS ["proj"])
      ∧ (mkdirAll busyDestFS ["proj"]).files = busyDestFS.files)
    ∧ Cmd.runInitCmd oneFileStore extOK "proj" "example.com/p" "chi" "none" "none" ""
        false "none" false busyDestFS
        = .error ("directory " ++ "proj" ++ " already exists (use --force to overwrite)") :=
  ⟨initProject_force_prep_and_no_conflict_check.1 _ _ _ _ _ (by decide) rfl,
   initProject_force_prep_and_no_conflict_check.2.1 _ _ _ _ _ (by decide) rfl,
   initProject_force_prep_and_no_conflict_check.2.2 _ _ "proj" "example.com/p" "chi"
     "none" "none" "" false "none" _ (by decide) (by decide) (by decide)⟩

/-- C6: for every file entry walked during an overlay application, a
marker-suffixed source is written under the stripped destination name
with rendered content — a render failure aborting the whole apply with an
error naming the source path — and an unmarked source is written under
its own name with byte-identical content. -/
theorem overlay_file_entry_semantics :
    ∀ (store : Store) (tp dp : Path) (data : VarMap) (pre post : Bundle)
      (rel : Path) (c : String) (fs fs1 : FS),
      store tp = pre ++ Entry.file rel c :: post →
      applyWalk Engine.renderTemplate tp dp data pre fs = .ok fs1 →
      rel ≠ [] →
      ((markedTmpl rel = true →
        (∀ e, Engine.renderTemplate c data = .error e →
          Engine.applyTemplate store tp dp data fs
            = .error ("failed to render template " ++ pathStr (tp ++ rel) ++ ": " ++ e))
        ∧ ∀ out, Engine.renderTemplate c data = .ok out →
          Engine.applyTemplate store tp dp data fs
            = applyWalk Engine.renderTemplate tp dp data post
                (writeFile (mkdirAll fs1 (parentDir (dp ++ destRel rel)))
                  (dp ++ destRel rel) out))
      ∧ (markedTmpl rel = false →
        Engine.applyTemplate store tp dp data fs
          = applyWalk Engine.renderTemplate tp dp data post
              (writeFile (mkdirAll fs1 (parentDir (dp ++ rel))) (dp ++ rel) c))) := by
  intro store tp dp data pre post rel c fs fs1 hstore hpre hrel
  have hun : Engine.applyTemplate store tp dp data fs
      = applyWalk Engine.renderTemplate tp dp data (Entry.file rel c :: post) fs1 := by
    unfold Engine.applyTemplate
    rw [hstore, applyWalk_append, hpre]
  refine ⟨fun hm => ⟨?_, ?_⟩, ?_⟩
  · intro e he
    rw [hun]
    simp only [applyWalk, applyEntry, if_pos hm, he]
  · intro out ho
    rw [hun]
    simp only [applyWalk, applyEntry, if_pos hm, ho,
      stripTmplPath_append dp rel hrel, destRel]
  · intro hm
    have hm2 : ¬ (markedTmpl rel = true) := by
      rw [hm]
      exact Bool.false_ne_true
    rw [hun]
    simp only [applyWalk, applyEntry, if_neg hm2]

/-- C6, witness: a one-file marked bundle applied to the empty
filesystem. -/
theorem overlay_file_entry_semantics_witness :
    Engine.applyTemplate tmplStore ["files", "base"] ["d"] witData emptyFS
      = applyWalk Engine.renderTemplate ["files", "base"] ["d"] witData []
          (writeFile (mkdirAll emptyFS (parentDir (["d"] ++ destRel ["f.txt.tmpl"])))
            (["d"] ++ destRel ["f.txt.tmpl"]) "Hi W") :=
  ((overlay_file_entry_semantics tmplStore ["files", "base"] ["d"] witData [] []
      ["f.txt.tmpl"] "Hi \x7b\x7b.Name\x7d\x7d" emptyFS emptyFS (by decide) rfl
      (by decide)).1 (by decide)).2 "Hi W" (by decide)

/-- C7: when two bundles map a file to the same destination path,
applying the first and then the second leaves that path holding exactly
the bytes produced from the second bundle's file — the later write fully
replaces the earlier one, with no merging. -/
theorem overlay_last_write_wins :
    ∀ (render : String → VarMap → Except String String) (tp dp : Path) (data : VarMap)
      (A B : Bundle) (fs fs1 fs2 : FS) (pre : Bundle) (rel : Path) (c : String)
      (post : Bundle),
      applyWalk render tp dp data A fs = .ok fs1 →
      applyWalk render tp dp data B fs1 = .ok fs2 →
      B = pre ++ Entry.file rel c :: post →
      rel ≠ [] →
      (∀ e ∈ post, writeTarget dp e ≠ some (dp ++ destRel rel)) →
      ∃ out, producedBytes render data rel c = .ok out ∧
        lookupFile fs2 (dp ++ destRel rel) = some out := by
  intro render tp dp data A B fs fs1 fs2 pre rel c post hA hB hBeq hrel hpost
  subst hBeq
  rw [applyWalk_append] at hB
  cases hp : applyWalk render tp dp data pre fs1 with
  | error e => rw [hp] at hB; simp at hB
  | ok fsp =>
    rw [hp] at hB
    have hB2 : applyWalk render tp dp data (Entry.file rel c :: post) fsp = .ok fs2 := hB
    simp only [applyWalk] at hB2
    cases hstep : applyEntry render tp dp data fsp (Entry.file rel c) with
    | error er => rw [hstep] at hB2; simp at hB2
    | ok fsq =>
      rw [hstep] at hB2
      have hB3 : applyWalk render tp dp data post fsq = .ok fs2 := hB2
      simp only [applyEntry] at hstep
      have hframe := applyWalk_preserves_lookup render tp dp data post fsq fs2
        (dp ++ destRel rel) hpost hB3
      by_cases hm : markedTmpl rel = true
      · rw [if_pos hm] at hstep
        cases hr : render c data with
        | error e2 => rw [hr] at hstep; cases hstep
        | ok out =>
          rw [hr] at hstep
          have hfsq : fsq = writeFile (mkdirAll fsp (parentDir (stripTmplPath (dp ++ rel))))
              (stripTmplPath (dp ++ rel)) out := by
            cases hstep
            rfl
          refine ⟨out, ?_, ?_⟩
          · unfold producedBytes
            rw [if_pos hm, hr]
          · have hd : destRel rel = stripTmplPath rel := by
              unfold destRel
              rw [if_pos hm]
            rw [hframe, hfsq, hd, ← stripTmplPath_append dp rel hrel,
              lookupFile_writeFile_same]
      · rw [if_neg hm] at hstep
        have hfsq : fsq = writeFile (mkdirAll fsp (parentDir (dp ++ rel))) (dp ++ rel) c := by
          cases hstep
          rfl
        refine ⟨c, ?_, ?_⟩
        · unfold producedBytes
          rw [if_neg hm]
        · have hd : destRel rel = rel := by
            unfold destRel
            rw [if_neg hm]
          rw [hframe, hfsq, hd, lookupFile_writeFile_same]

/-- C7, witness: a static file and then a marked template landing on the
same destination path; the destination ends with the rendered bytes of
the second bundle. -/
theorem overlay_last_write_wins_witness :
    ∃ out, producedBytes Engine.renderTemplate witDataV ["x.txt.tmpl"] "b\x7b\x7b.V\x7d\x7db"
        = .ok out
      ∧ lookupFile fsAfterB (["d"] ++ destRel ["x.txt.tmpl"]) = some out :=
  overlay_last_write_wins Engine.renderTemplate ["t"] ["d"] witDataV bundleA bundleB
    emptyFS fsAfterA fsAfterB [] ["x.txt.tmpl"] "b\x7b\x7b.V\x7d\x7db" []
    (by decide) (by decide) (by decide) (by decide) (by decide)

/-- C5: within a single InitProject run, the rendering context is built
once, before the base overlay is applied, and every overlay and module
application observes that same context value — the trace of observed
contexts contains nothing but the context built from the options. -/
theorem initProject_context_immutable :
    ∀ (store : Store) (ext : Engine.ExtTools) (p : Path) (o : InitOptions) (fs : FS),
      ∀ e ∈ (Engine.InitProject store ext p o fs).2, e.2 = Engine.mkInitContext p o := by
  intro store ext p o fs e he
  unfold Engine.InitProject at he
  cases hv : Engine.validateInitOptions o with
  | error er =>
    rw [hv] at he
    simp at he
  | ok u =>
    rw [hv] at he
    simp only [Engine.initProjectPrepped] at he
    split at he
    · simp only [List.mem_singleton] at he
      rw [he]
    · rename_i fs1 hbase
      split at he
      · rename_i e2 tr1 hdb
        have hspec := moduleStage_spec _ _ _ _ _ _ _ _ _ _ _ hdb
        rcases hspec.1 e he with hx | hx
        · simp only [List.mem_singleton] at hx
          rw [hx]
        · exact hx
      · rename_i fs2 ctx2 tr2 hdb
        have hspec := moduleStage_spec _ _ _ _ _ _ _ _ _ _ _ hdb
        have hctx2 := hspec.2 fs2 ctx2 rfl
        have hinv : ∀ x ∈ tr2, x.2 = Engine.mkInitContext p o := by
          intro x hx
          rcases hspec.1 x hx with hx2 | hx2
          · simp only [List.mem_singleton] at hx2
            rw [hx2]
          · exact hx2
        subst hctx2
        split at he
        · rename_i e3 tr3 hoa
          have hspec2 := moduleStage_spec _ _ _ _ _ _ _ _ _ _ _ hoa
          rcases hspec2.1 e he with hx | hx
          · exact hinv e hx
          · exact hx
        · rename_i fs3 ctx3 tr3 hoa
          have hspec2 := moduleStage_spec _ _ _ _ _ _ _ _ _ _ _ hoa
          have hctx3 := hspec2.2 fs3 ctx3 rfl
          have hinv2 : ∀ x ∈ tr3, x.2 = Engine.mkInitContext p o := by
            intro x hx
            rcases hspec2.1 x hx with hx2 | hx2
            · exact hinv x hx2
            · exact hx2
          subst hctx3
          split at he
          · rename_i e4 tr4 hdk
            have hspec3 := moduleStage_spec _ _ _ _ _ _ _ _ _ _ _ hdk
            rcases hspec3.1 e he with hx | hx
            · exact hinv2 e hx
            · exact hx
          · rename_i fs4 ctx4 tr4 hdk
            have hspec3 := moduleStage_spec _ _ _ _ _ _ _ _ _ _ _ hdk
            have hinv3 : ∀ x ∈ tr4, x.2 = Engine.mkInitContext p o := by
              intro x hx
              rcases hspec3.1 x hx with hx2 | hx2
              · exact hinv2 x hx2
              · exact hx2
            split at he
            · exact hinv3 e he
            · exact hinv3 e he

/-- C5, witness: a concrete successful run whose trace records the base
overlay observing the context built from the options. -/
theorem initProject_context_immutable_witness :
    ("base", Engine.mkInitContext ["proj"] chiOpts).2
      = Engine.mkInitContext ["proj"] chiOpts :=
  initProject_context_immutable oneFileStore extOK ["proj"] chiOpts emptyFS
    ("base", Engine.mkInitContext ["proj"] chiOpts) (by decide)

end Gocrete
